import Mathlib

/-!
Shallow embedding of the scan/analysis pipeline of
src/hello_world/smart.py: the iterative process-supervision and
anomaly-scoring loop (entropy and statistics utilities, output parser,
feature extractor, insight generator, anomaly-detector gate, process
supervisor, scan loop controller).

Modelling conventions:
- Python text is a list of characters; re.findall with the concrete
  patterns of the source is modelled by left-to-right, non-overlapping,
  maximal-munch scanners (each pattern in the source is anchored by a
  literal and followed by a greedy digit run, so no further backtracking
  arises).  The recursion is driven by a fuel argument set to
  length + 1; every step removes at least one character from the input,
  so the fuel never runs out and the scanners are total structural
  functions that the kernel can evaluate.
- The character class for the digit patterns is ASCII 0-9 (the inputs
  are the output of a C program; non-ASCII Unicode digits accepted by
  Python's regex \d never occur there).
- Python ints are Nat/Int, exact rationals are Rat, and float results
  (ratios, means, standard deviations, entropy) are real numbers.
  Where the int-versus-float distinction is observable in the source
  (the ":016x" format specifier raises ValueError on a float), the
  Python number is modelled by the PyNum type below.
-/

/-- Literal matcher: if the literal is a character-by-character prefix of
the input, returns the input with the literal removed. -/
def dropLit : List Char → List Char → Option (List Char)
  | [], s => some s
  | _ :: _, [] => none
  | l :: ls, c :: cs => if l = c then dropLit ls cs else none

/-- The character class [0-9a-fA-F] of the address pattern. -/
def isHexDigitChar (c : Char) : Bool :=
  (('0' ≤ c) && (c ≤ '9')) || (('a' ≤ c) && (c ≤ 'f')) || (('A' ≤ c) && (c ≤ 'F'))

/-- Numeric value of an ASCII decimal digit. -/
def digitVal (c : Char) : ℕ := c.toNat - '0'.toNat

/-- Numeric value of an ASCII hexadecimal digit. -/
def hexDigitVal (c : Char) : ℕ :=
  if ('0' ≤ c) && (c ≤ '9') then c.toNat - '0'.toNat
  else if ('a' ≤ c) && (c ≤ 'f') then c.toNat - 'a'.toNat + 10
  else if ('A' ≤ c) && (c ≤ 'F') then c.toNat - 'A'.toNat + 10
  else 0

/-- Python int(digits) on a decimal digit string. -/
def digitsToNat (ds : List Char) : ℕ := ds.foldl (fun n c => 10 * n + digitVal c) 0

/-- Python int(digits, 16) on a hexadecimal digit string. -/
def hexToNat (ds : List Char) : ℕ := ds.foldl (fun n c => 16 * n + hexDigitVal c) 0

/-- The literal head of the pattern r'Iteration (\d+):' (smart.py line 54). -/
def iterLit : List Char := "Iteration ".toList

/-- The literal pattern r'Caught segmentation fault' (smart.py line 61). -/
def segfaultLit : List Char := "Caught segmentation fault".toList

/-- The literal head of the pattern r'Allocating (\d+) bytes' (line 76). -/
def allocLit : List Char := "Allocating ".toList

/-- The literal tail of the pattern r'Allocating (\d+) bytes'. -/
def bytesLit : List Char := " bytes".toList

/-- Fueled scanner for re.findall(r'Iteration (\d+):', output): counts
non-overlapping matches left to right; a match is the literal
"Iteration " followed by a maximal nonempty digit run followed by a
colon, and scanning resumes after the colon. -/
def scanIterF : ℕ → List Char → ℕ
  | 0, _ => 0
  | _ + 1, [] => 0
  | fuel + 1, c :: rest =>
    match dropLit iterLit (c :: rest) with
    | some r1 =>
      match r1.takeWhile Char.isDigit, r1.dropWhile Char.isDigit with
      | _ :: _, ':' :: r3 => scanIterF fuel r3 + 1
      | _, _ => scanIterF fuel rest
    | none => scanIterF fuel rest

/-- Number of iteration markers in the text (smart.py lines 54-55, 180-181). -/
def num_iterations (s : List Char) : ℕ := scanIterF (s.length + 1) s

/-- Fueled scanner counting occurrences of the recovery phrase. -/
def scanSegF : ℕ → List Char → ℕ
  | 0, _ => 0
  | _ + 1, [] => 0
  | fuel + 1, c :: rest =>
    match dropLit segfaultLit (c :: rest) with
    | some r => scanSegF fuel r + 1
    | none => scanSegF fuel rest

/-- Number of segmentation-fault recovery markers (lines 61-62, 182-183). -/
def num_segfaults (s : List Char) : ℕ := scanSegF (s.length + 1) s

/-- Fueled scanner for re.findall(r'Allocating (\d+) bytes', output):
each match contributes the integer value of its captured digit run, in
order of appearance. -/
def scanAllocF : ℕ → List Char → List ℕ
  | 0, _ => []
  | _ + 1, [] => []
  | fuel + 1, c :: rest =>
    match dropLit allocLit (c :: rest) with
    | some r1 =>
      match r1.takeWhile Char.isDigit, dropLit bytesLit (r1.dropWhile Char.isDigit) with
      | ds@(_ :: _), some r3 => digitsToNat ds :: scanAllocF fuel r3
      | _, _ => scanAllocF fuel rest
    | none => scanAllocF fuel rest

/-- Allocation sizes parsed from the text (lines 76-77, 186-187). -/
def allocation_sizes (s : List Char) : List ℕ := scanAllocF (s.length + 1) s

/-- Fueled scanner for re.findall(r'0x[0-9a-fA-F]+', output): returns the
matched token strings (with the 0x prefix), in order of appearance,
with duplicates preserved; each match is maximal and scanning resumes
after it. -/
def scanHexF : ℕ → List Char → List (List Char)
  | 0, _ => []
  | _ + 1, [] => []
  | fuel + 1, c :: rest =>
    match c, rest with
    | '0', 'x' :: rest2 =>
      match rest2.takeWhile isHexDigitChar, rest2.dropWhile isHexDigitChar with
      | [], _ => scanHexF fuel ('x' :: rest2)
      | ds@(_ :: _), r => ('0' :: 'x' :: ds) :: scanHexF fuel r
    | _, _ => scanHexF fuel rest

/-- Hex address tokens of the text (lines 100, 195). -/
def hex_addresses (s : List Char) : List (List Char) := scanHexF (s.length + 1) s

/-- Python int(token, 16) on a token of the form 0x followed by hex digits. -/
def tokenVal (t : List Char) : ℕ := hexToNat (t.drop 2)

/-- The integer values of the hex address tokens (lines 102, 197). -/
def addresses_int (s : List Char) : List ℕ := (hex_addresses s).map tokenVal

/-- First-occurrence deduplication, keeping the order in which distinct
elements first appear: the key order of a Python dict built by
insertion, and the element set of Python set(...). -/
def pyDedupGo [DecidableEq α] (seen : List α) : List α → List α
  | [] => []
  | a :: l => if a ∈ seen then pyDedupGo seen l else a :: pyDedupGo (a :: seen) l

/-- First-occurrence deduplication of a list. -/
def pyDedup [DecidableEq α] (l : List α) : List α := pyDedupGo [] l

/-- Python min of a nonempty list (0 as an unused default for []). -/
def pyMin (l : List ℕ) : ℕ :=
  match l with
  | [] => 0
  | a :: r => r.foldl Nat.min a

/-- Python max of a nonempty list (0 as an unused default for []). -/
def pyMax (l : List ℕ) : ℕ :=
  match l with
  | [] => 0
  | a :: r => r.foldl Nat.max a

/-- Insertion step of an ascending insertion sort on naturals. -/
def insertAsc (x : ℕ) : List ℕ → List ℕ
  | [] => [x]
  | y :: l => if x ≤ y then x :: y :: l else y :: insertAsc x l

/-- Ascending sort of a list of naturals, modelling Python sorted(...). -/
def pySorted (l : List ℕ) : List ℕ := l.foldr insertAsc []

/-- Insertion step of an insertion sort of hex tokens by numeric value. -/
def insertByVal (x : List Char) : List (List Char) → List (List Char)
  | [] => [x]
  | y :: l => if tokenVal x ≤ tokenVal y then x :: y :: l else y :: insertByVal x l

/-- Sorting hex tokens by ascending numeric value, modelling
sorted(set(hex_addresses), key=lambda a: int(a, 16)) at line 152; the
relative order of distinct tokens with equal value is arbitrary in
Python (set iteration order) and fixed here. -/
def sortByVal (l : List (List Char)) : List (List Char) := l.foldr insertByVal []

/-- Does the literal occur as a contiguous substring of the text
(Python's "lit in output")? -/
def containsLit (lit : List Char) : List Char → Bool
  | [] => lit.isEmpty
  | c :: rest => (dropLit lit (c :: rest)).isSome || containsLit lit rest

/-- Shannon entropy of the empirical distribution of a list, base 2:
calculate_entropy of smart.py lines 19-33.  The frequency dict is
modelled by first-occurrence deduplication plus List.count. -/
noncomputable def calculate_entropy (l : List ℕ) : ℝ :=
  if l = [] then 0
  else
    -((pyDedup l).map (fun a =>
        ((l.count a : ℝ) / (l.length : ℝ)) * Real.logb 2 ((l.count a : ℝ) / (l.length : ℝ)))).sum

/-- Sample variance with Bessel's correction (divisor n − 1), the exact
value computed by Python statistics.stdev before the square root. -/
noncomputable def sampleVariance (l : List ℕ) : ℝ :=
  ((l.map (fun x => ((x : ℝ) - (l.sum : ℝ) / (l.length : ℝ)) ^ 2)).sum) / ((l.length : ℝ) - 1)

/-- Sample standard deviation, modelling Python statistics.stdev. -/
noncomputable def sampleStdev (l : List ℕ) : ℝ := Real.sqrt (sampleVariance l)

/-- Feature extractor extract_features (smart.py lines 174-206): the
5-element vector [segfault_ratio, avg_alloc, stdev_alloc, hex_entropy,
unique_hex_count]. -/
noncomputable def extract_features (s : List Char) : List ℝ :=
  [ if 0 < num_iterations s then (num_segfaults s : ℝ) / (num_iterations s : ℝ) else 0,
    if allocation_sizes s ≠ [] then
      ((allocation_sizes s).sum : ℝ) / ((allocation_sizes s).length : ℝ) else 0,
    if 1 < (allocation_sizes s).length then sampleStdev (allocation_sizes s) else 0,
    if hex_addresses s ≠ [] then calculate_entropy (addresses_int s) else 0,
    if hex_addresses s ≠ [] then ((pyDedup (addresses_int s)).length : ℝ) else 0 ]

/-- A Python number as observed by the hex-format specifier: statistics
results are ints when exact over int data and floats otherwise, and
format(value, "016x") raises ValueError exactly when the value is a
float. -/
inductive PyNum where
  | int (n : ℤ)
  | float (q : ℚ)
deriving DecidableEq

/-- Python statistics.mean over ints: an int when the mean is exact,
otherwise a float (only used on nonempty input). -/
def statMeanInts (l : List ℕ) : PyNum :=
  if l.length ∣ l.sum then .int (l.sum / l.length) else .float ((l.sum : ℚ) / (l.length : ℚ))

/-- Python statistics.median over ints: the middle element (an int) for
odd length, the average of the two middle elements (always a float,
Python true division) for even length (only used on input of length at
least 2). -/
def statMedianInts (l : List ℕ) : PyNum :=
  if (pySorted l).length % 2 = 1 then .int ((pySorted l).getD ((pySorted l).length / 2) 0)
  else .float ((((pySorted l).getD ((pySorted l).length / 2 - 1) 0 : ℚ) +
                ((pySorted l).getD ((pySorted l).length / 2) 0 : ℚ)) / 2)

/-- The median as an exact rational (payload of the allocation-median
insight line, where Python prints the value with no format code and so
never fails). -/
def medianQ (l : List ℕ) : ℚ :=
  if (pySorted l).length % 2 = 1 then ((pySorted l).getD ((pySorted l).length / 2) 0 : ℚ)
  else (((pySorted l).getD ((pySorted l).length / 2 - 1) 0 : ℚ) +
        ((pySorted l).getD ((pySorted l).length / 2) 0 : ℚ)) / 2

/-- Python format(v, "016x"): succeeds on an int, raises ValueError on a
float (regardless of its value). -/
def fmtHex : PyNum → Option ℤ
  | .int n => some n
  | .float _ => none

/-- Heuristic classification returned by interpret_address
(smart.py lines 234-247). -/
inductive AddrClass where
  | nullPointer
  | stack
  | codeSegment
  | heapGlobal
  | unknown
deriving DecidableEq

/-- interpret_address (smart.py lines 234-247): fixed ordered range
checks, first match wins. -/
def interpret_address (addr : ℕ) : AddrClass :=
  if addr = 0 then .nullPointer
  else if 0x7ff000000000 ≤ addr ∧ addr ≤ 0x7fffffffffff then .stack
  else if 0x400000 ≤ addr ∧ addr < 0x800000 then .codeSegment
  else if 0x100000000 ≤ addr ∧ addr < 0x7ff000000000 then .heapGlobal
  else .unknown

/-- One narrative statement of the analysis report produced by
analyze_scan_output.  Each constructor stands for one distinct f-string
of the source, carrying the numeric payloads that are exactly
representable; values printed from irrational floats (standard
deviations, entropy) are presentation-only and carried without
payload. -/
inductive Insight where
  | totalIterationsLine (n : ℕ)
  | numSegfaultsLine (n : ℕ)
  | successIterationsLine (n : ℤ)
  | segfaultRatioLine (r : ℚ)
  | noIterationsLine
  | avgAllocLine (q : ℚ)
  | allocRangeLine (lo hi : ℕ)
  | stdevAllocLine
  | medianAllocLine (q : ℚ)
  | insufficientAllocStats
  | noAllocData
  | totalHexLine (n : ℕ)
  | uniqueHexLine (n : ℕ)
  | avgAddrLine (v : ℤ)
  | medianAddrLine (v : ℤ)
  | stdevAddrLine
  | insufficientHexStats
  | entropyLine
  | notEnoughHexData
  | noHexAddresses
  | repetitiveAlert
  | repeatedAddrLine (tok : List Char) (count : ℕ)
  | noRepetitive
  | highSegfaultWarning
  | segfaultWithinLimits
  | interpHeader
  | interpLine (tok : List Char) (cls : AddrClass)
  | nullPointerFlag
  | noMemAddresses
  | nullPageMapped
  | nullPageFailed
  | nullPageNotDetected
deriving DecidableEq

/-- Section 1 of analyze_scan_output (lines 54-56): iteration count. -/
def sec1 (s : List Char) : List Insight := [.totalIterationsLine (num_iterations s)]

/-- Section 2 (lines 61-71): segmentation-fault count and ratio. -/
def sec2 (s : List Char) : List Insight :=
  .numSegfaultsLine (num_segfaults s) ::
  (if 0 < num_iterations s then
    [.successIterationsLine ((num_iterations s : ℤ) - (num_segfaults s : ℤ)),
     .segfaultRatioLine ((num_segfaults s : ℚ) / (num_iterations s : ℚ))]
   else [.noIterationsLine])

/-- Section 3 (lines 76-95): allocation statistics. -/
def sec3 (s : List Char) : List Insight :=
  if allocation_sizes s = [] then [.noAllocData]
  else
    [.avgAllocLine (((allocation_sizes s).sum : ℚ) / ((allocation_sizes s).length : ℚ)),
     .allocRangeLine (pyMin (allocation_sizes s)) (pyMax (allocation_sizes s))] ++
    (if 1 < (allocation_sizes s).length then
      [.stdevAllocLine, .medianAllocLine (medianQ (allocation_sizes s))]
     else [.insufficientAllocStats])

/-- The try block of lines 107-115: mean, stdev and median are computed
first (never failing for two or more int samples), then appended in
the order mean, median, stdev; formatting a float with ":016x" raises
ValueError, which the except clause turns into the
insufficient-data line, discarding the remaining appends. -/
def hexTryLines (ints : List ℕ) : List Insight :=
  match fmtHex (statMeanInts ints) with
  | none => [.insufficientHexStats]
  | some m =>
    match fmtHex (statMedianInts ints) with
    | none => [.avgAddrLine m, .insufficientHexStats]
    | some md => [.avgAddrLine m, .medianAddrLine md, .stdevAddrLine]

/-- Section 4 (lines 100-123): hexadecimal address statistics. -/
def sec4 (s : List Char) : List Insight :=
  if hex_addresses s = [] then [.noHexAddresses]
  else
    [.totalHexLine (hex_addresses s).length,
     .uniqueHexLine (pyDedup (addresses_int s)).length] ++
    (if 1 < (addresses_int s).length then hexTryLines (addresses_int s) ++ [.entropyLine]
     else [.notEnoughHexData])

/-- Section 5 (lines 128-137): token strings occurring more than 10
times, keyed by the token text in order of first appearance. -/
def sec5 (s : List Char) : List Insight :=
  if (pyDedup (hex_addresses s)).filter (fun t => 10 < (hex_addresses s).count t) = [] then
    [.noRepetitive]
  else
    .repetitiveAlert ::
    ((pyDedup (hex_addresses s)).filter (fun t => 10 < (hex_addresses s).count t)).map
      (fun t => .repeatedAddrLine t ((hex_addresses s).count t))

/-- Section 6 (lines 142-145): high-segfault-frequency warning; the
float literal 0.3 is modelled by the rational 3/10, which agrees with
the float comparison on all ratios of machine-level counts. -/
def sec6 (s : List Char) : List Insight :=
  if 0 < num_iterations s ∧ (3 : ℚ) / 10 < (num_segfaults s : ℚ) / (num_iterations s : ℚ) then
    [.highSegfaultWarning]
  else [.segfaultWithinLimits]

/-- Section 7 (lines 150-159): per-unique-address interpretation, sorted
by numeric value, followed by the null-pointer flag when the literal
token 0x0 occurs among the token strings. -/
def sec7 (s : List Char) : List Insight :=
  if hex_addresses s = [] then [.noMemAddresses]
  else
    (.interpHeader ::
      (sortByVal (pyDedup (hex_addresses s))).map
        (fun t => .interpLine t (interpret_address (tokenVal t)))) ++
    (if "0x0".toList ∈ hex_addresses s then [.nullPointerFlag] else [])

/-- The two marker phrases of the null-page-mapping check (lines 164-169). -/
def mappedLit : List Char := "(DEBUG) Successfully mapped null page".toList

/-- The failure marker phrase of the null-page-mapping check. -/
def failedLit : List Char := "(DEBUG) Null page mapping attempt failed".toList

/-- Section 8 (lines 164-169): ternary null-page-mapping check. -/
def sec8 (s : List Char) : List Insight :=
  if containsLit mappedLit s then [.nullPageMapped]
  else if containsLit failedLit s then [.nullPageFailed]
  else [.nullPageNotDetected]

/-- analyze_scan_output (smart.py lines 35-172): the ordered list of
narrative statements. -/
def analyze_scan_output (s : List Char) : List Insight :=
  sec1 s ++ sec2 s ++ sec3 s ++ sec4 s ++ sec5 s ++ sec6 s ++ sec7 s ++ sec8 s

/-- Result of perform_ml_analysis, lines 208-232. -/
inductive MLReport where
  | unavailable
  | insufficient (samples : ℕ)
  | verdict (anomalous : Bool) (samples : ℕ)
deriving DecidableEq

/-- perform_ml_analysis (lines 208-232).  The IsolationForest fit and
prediction over ten or more aggregated vectors is an external library
call, modelled by the oracle parameter classifyAnomalous; mlAvailable
models whether the sklearn import succeeded (IsolationForest is None). -/
def perform_ml_analysis (mlAvailable : Bool)
    (classifyAnomalous : List (List ℝ) → List ℝ → Bool)
    (feature_vector : List ℝ) (aggregated_features : List (List ℝ)) : MLReport :=
  if !mlAvailable then .unavailable
  else if 10 ≤ aggregated_features.length then
    .verdict (classifyAnomalous aggregated_features feature_vector) aggregated_features.length
  else .insufficient aggregated_features.length

/-- A Python exception relevant to one supervision cycle. -/
inductive PyExc where
  | timeoutExpired
  | processLookupError
  | otherExc (code : ℕ)
deriving DecidableEq

/-- The observable behavior of one launched target process during the
termination phase of a cycle (lines 508-523): the outcome of
os.kill(pid, SIGTERM), of the first proc.communicate(timeout=3), of
os.kill(pid, SIGKILL), and of the second proc.communicate(timeout=3).
For each call, an error value is the exception Python would raise. -/
structure CycleOracle where
  sigterm : Option PyExc
  comm1 : Except PyExc (List Char)
  sigkill : Option PyExc
  comm2 : Except PyExc (List Char)

/-- The termination-and-collection phase of one supervisor cycle
(smart.py lines 508-523), with Python exception propagation modelled by
Except: os.kill(SIGTERM) inside a try whose except catches only
ProcessLookupError; the first communicate inside a try catching only
TimeoutExpired; on timeout, SIGKILL and a final communicate inside a
try whose except Exception absorbs every failure and sets stdout to the
empty string. -/
def terminate_and_collect (o : CycleOracle) : Except PyExc (List Char) :=
  match o.sigterm with
  | some PyExc.processLookupError =>
    terminateStep2 o
  | some e => Except.error e
  | none => terminateStep2 o
where
  /-- Lines 514-523: the communicate / forced-termination sequence. -/
  terminateStep2 (o : CycleOracle) : Except PyExc (List Char) :=
    match o.comm1 with
    | Except.ok out => Except.ok out
    | Except.error PyExc.timeoutExpired =>
      (match o.sigkill with
       | some _ => Except.ok []
       | none =>
         match o.comm2 with
         | Except.ok out => Except.ok out
         | Except.error _ => Except.ok [])
    | Except.error e => Except.error e

/-- The convergence tolerance of the scan loop (line 543); the float
literal 1e-6 is modelled by the rational 1/1000000. -/
noncomputable def tol : ℝ := 1 / 1000000

/-- Element-wise convergence of two feature vectors (lines 544-545):
every element of zip(newest, previous) differs by less than the
tolerance in absolute value. -/
def vecConverged (v w : List ℝ) : Prop :=
  ∀ p ∈ v.zip w, |p.1 - p.2| < tol

/-- The scan loop breaks at the end of cycle k (lines 542-547): the
history has at least two entries (k is at least 1) and the two most
recently appended vectors converge. -/
def breaksAfter (fv : ℕ → List ℝ) (k : ℕ) : Prop :=
  1 ≤ k ∧ vecConverged (fv k) (fv (k - 1))

/-- Cycle k of the scan loop starts, given the per-cycle feature vectors:
cycle 0 always starts, and cycle k + 1 starts exactly when cycle k
started and the convergence break did not fire at its end. -/
def runsCycle (fv : ℕ → List ℝ) : ℕ → Prop
  | 0 => True
  | k + 1 => runsCycle fv k ∧ ¬ breaksAfter fv k

/-- The scan loop controller (lines 494-551) as a function of the raw
outputs captured on each cycle: cycle k starts iff runsCycle holds of
the extracted feature history. -/
def scanLoopRuns (outputs : ℕ → List Char) (k : ℕ) : Prop :=
  runsCycle (fun i => extract_features (outputs i)) k

theorem mem_pyDedupGo [DecidableEq α] (l : List α) (a : α) :
    ∀ seen, a ∈ pyDedupGo seen l ↔ a ∈ l ∧ a ∉ seen := by
  induction l with
  | nil => intro seen; simp [pyDedupGo]
  | cons b l ih =>
    intro seen
    rw [pyDedupGo]
    split_ifs with hb
    · rw [ih]
      constructor
      · exact fun h => ⟨List.mem_cons_of_mem _ h.1, h.2⟩
      · rintro ⟨h1, h2⟩
        rcases List.mem_cons.mp h1 with rfl | h1
        · exact absurd hb h2
        · exact ⟨h1, h2⟩
    · by_cases hab : a = b
      · subst hab; simp [hb]
      · simp [ih, List.mem_cons, hab]

theorem nodup_pyDedupGo [DecidableEq α] (l : List α) : ∀ seen, (pyDedupGo seen l).Nodup := by
  induction l with
  | nil => intro seen; simp [pyDedupGo]
  | cons b l ih =>
    intro seen
    rw [pyDedupGo]
    split_ifs with hb
    · exact ih seen
    · refine List.nodup_cons.mpr ⟨?_, ih (b :: seen)⟩
      rw [mem_pyDedupGo]
      rintro ⟨-, h2⟩
      exact h2 (List.mem_cons_self b seen)

theorem mem_pyDedup [DecidableEq α] (l : List α) (a : α) : a ∈ pyDedup l ↔ a ∈ l := by
  rw [pyDedup, mem_pyDedupGo]; simp

theorem nodup_pyDedup [DecidableEq α] (l : List α) : (pyDedup l).Nodup := nodup_pyDedupGo l []

theorem toFinset_pyDedup [DecidableEq α] (l : List α) : (pyDedup l).toFinset = l.toFinset := by
  ext a; simp [List.mem_toFinset, mem_pyDedup]

theorem length_pyDedup [DecidableEq α] (l : List α) : (pyDedup l).length = l.toFinset.card := by
  rw [← List.toFinset_card_of_nodup (nodup_pyDedup l), toFinset_pyDedup]

theorem list_sum_nonpos (l : List ℝ) (h : ∀ x ∈ l, x ≤ 0) : l.sum ≤ 0 := by
  induction l with
  | nil => simp
  | cons a l ih =>
    have h1 := h a (by simp)
    have h2 := ih fun x hx => h x (List.mem_cons_of_mem _ hx)
    simp only [List.sum_cons]
    linarith

theorem map_sum_eq_finset_sum [DecidableEq α] (d : List α) (hd : d.Nodup) (f : α → ℝ) :
    (d.map f).sum = ∑ k in d.toFinset, f k := by
  induction d with
  | nil => simp
  | cons a d ih =>
    rcases List.nodup_cons.mp hd with ⟨ha, hd2⟩
    rw [List.map_cons, List.sum_cons, List.toFinset_cons,
        Finset.sum_insert (by simpa using ha), ih hd2]

theorem zip_self_eq (l : List ℝ) : ∀ p ∈ l.zip l, p.1 = p.2 := by
  induction l with
  | nil => simp
  | cons a l ih =>
    intro p hp
    rw [List.zip_cons_cons] at hp
    rcases List.mem_cons.mp hp with rfl | hp
    · rfl
    · exact ih p hp

theorem runsCycle_of_le (fv : ℕ → List ℝ) : ∀ j i, i ≤ j → runsCycle fv j → runsCycle fv i := by
  intro j
  induction j with
  | zero =>
    intro i hi h
    have : i = 0 := Nat.le_zero.mp hi
    subst this; exact h
  | succ j ih =>
    intro i hi h
    rw [runsCycle] at h
    rcases Nat.lt_or_ge i (j + 1) with hlt | hge
    · exact ih i (by omega) h.1
    · have : i = j + 1 := by omega
      subst this; rw [runsCycle]; exact h

theorem calculate_entropy_nonneg (l : List ℕ) : 0 ≤ calculate_entropy l := by
  rw [calculate_entropy]
  split_ifs with h
  · exact le_refl 0
  · refine neg_nonneg.mpr (list_sum_nonpos _ ?_)
    intro x hx
    rcases List.mem_map.mp hx with ⟨a, ha, rfl⟩
    have hal : a ∈ l := (mem_pyDedup l a).mp ha
    have hc1 : 1 ≤ l.count a := List.count_pos_iff.mpr hal
    have hcn : l.count a ≤ l.length := List.count_le_length a l
    have hn : 0 < l.length := List.length_pos.mpr h
    have hp0 : (0 : ℝ) < (l.count a : ℝ) / (l.length : ℝ) :=
      div_pos (by exact_mod_cast hc1) (by exact_mod_cast hn)
    have hp1 : (l.count a : ℝ) / (l.length : ℝ) ≤ 1 := by
      rw [div_le_one (by exact_mod_cast hn)]
      exact_mod_cast hcn
    have hlog : Real.logb 2 ((l.count a : ℝ) / (l.length : ℝ)) ≤ 0 :=
      Real.logb_nonpos (by norm_num) hp0.le hp1
    exact mul_nonpos_iff.mpr (Or.inl ⟨hp0.le, hlog⟩)

theorem extract_features_zero (s : List Char) :
    (extract_features s).getD 0 0 =
      if 0 < num_iterations s then (num_segfaults s : ℝ) / (num_iterations s : ℝ) else 0 := rfl

theorem extract_features_one (s : List Char) :
    (extract_features s).getD 1 0 =
      if allocation_sizes s ≠ [] then
        ((allocation_sizes s).sum : ℝ) / ((allocation_sizes s).length : ℝ) else 0 := rfl

theorem extract_features_two (s : List Char) :
    (extract_features s).getD 2 0 =
      if 1 < (allocation_sizes s).length then sampleStdev (allocation_sizes s) else 0 := rfl

theorem extract_features_three (s : List Char) :
    (extract_features s).getD 3 0 =
      if hex_addresses s ≠ [] then calculate_entropy (addresses_int s) else 0 := rfl

theorem extract_features_four (s : List Char) :
    (extract_features s).getD 4 0 =
      if hex_addresses s ≠ [] then ((pyDedup (addresses_int s)).length : ℝ) else 0 := rfl

/-- Claim C9: for every input text, every one of the 5 elements of the
feature vector returned by extract_features is non-negative (positions
beyond the vector read the default 0, so the statement quantifies over
all indices). -/
theorem extract_features_nonneg (s : List Char) (i : ℕ) :
    (extract_features s).length = 5 ∧ 0 ≤ (extract_features s).getD i 0 := by
  refine ⟨rfl, ?_⟩
  match i with
  | 0 =>
    rw [extract_features_zero]
    split_ifs
    · positivity
    · exact le_refl 0
  | 1 =>
    rw [extract_features_one]
    split_ifs
    · positivity
    · exact le_refl 0
  | 2 =>
    rw [extract_features_two]
    split_ifs
    · exact Real.sqrt_nonneg _
    · exact le_refl 0
  | 3 =>
    rw [extract_features_three]
    split_ifs
    · exact calculate_entropy_nonneg _
    · exact le_refl 0
  | 4 =>
    rw [extract_features_four]
    split_ifs
    · positivity
    · exact le_refl 0
  | (n + 5) =>
    have : (extract_features s).length ≤ n + 5 := by
      show 5 ≤ n + 5
      omega
    rw [List.getD_eq_default _ _ this]

/-- Claim C4: with the ML capability available, for every feature history
of length 1 to 9 the anomaly-detection step returns the
insufficient-data verdict carrying the history length, independently of
the classifier oracle and of every vector value. -/
theorem ml_insufficient_data (classify : List (List ℝ) → List ℝ → Bool)
    (fv : List ℝ) (agg : List (List ℝ))
    (h1 : 1 ≤ agg.length) (h2 : agg.length ≤ 9) :
    perform_ml_analysis true classify fv agg = MLReport.insufficient agg.length := by
  rw [perform_ml_analysis]
  rw [if_neg (by simp)]
  rw [if_neg (by omega)]

theorem ml_insufficient_data_witness :
    perform_ml_analysis true (fun _ _ => true) [0, 0, 0, 0, 0] [[0], [1], [2]] =
      MLReport.insufficient 3 := by
  have h := ml_insufficient_data (fun _ _ => true) [0, 0, 0, 0, 0] [[0], [1], [2]]
    (by simp) (by simp)
  simpa using h

/-- Claim C2: under the failure modes termination can produce (the
graceful kill finding the process already gone, the bounded collect
timing out, and arbitrary failures of the forced kill or of the final
bounded collect), one supervisor cycle always produces a raw output
and never propagates an error; in particular, when the
forced-termination path's final attempt to collect output also fails,
the cycle returns the output captured so far, which is empty. -/
theorem cycle_absorbs_termination_failures (o : CycleOracle)
    (hterm : o.sigterm = none ∨ o.sigterm = some PyExc.processLookupError)
    (hcomm : ∀ e, o.comm1 = Except.error e → e = PyExc.timeoutExpired) :
    (∃ out, terminate_and_collect o = Except.ok out) ∧
    (o.comm1 = Except.error PyExc.timeoutExpired →
      ((∃ e, o.sigkill = some e) ∨ (∃ e, o.comm2 = Except.error e)) →
      terminate_and_collect o = Except.ok []) := by
  have hstep : terminate_and_collect o = terminate_and_collect.terminateStep2 o := by
    rcases hterm with h | h <;> rw [terminate_and_collect, h]
  rw [hstep, terminate_and_collect.terminateStep2]
  cases h1 : o.comm1 with
  | ok out => exact ⟨⟨out, rfl⟩, by intro h; simp at h⟩
  | error e =>
    have he : e = PyExc.timeoutExpired := hcomm e h1
    subst he
    cases hk : o.sigkill with
    | some ek => exact ⟨⟨[], rfl⟩, fun _ _ => rfl⟩
    | none =>
      cases h2 : o.comm2 with
      | ok out2 =>
        refine ⟨⟨out2, rfl⟩, ?_⟩
        rintro - (⟨ek, hk2⟩ | ⟨e2, h2x⟩)
        · simp at hk2
        · simp at h2x
      | error e2 => exact ⟨⟨[], rfl⟩, fun _ _ => rfl⟩

theorem cycle_absorbs_termination_failures_witness :
    terminate_and_collect
      ⟨some PyExc.processLookupError, Except.error PyExc.timeoutExpired,
       none, Except.error (PyExc.otherExc 7)⟩ = Except.ok [] := by
  have h := cycle_absorbs_termination_failures
    ⟨some PyExc.processLookupError, Except.error PyExc.timeoutExpired,
     none, Except.error (PyExc.otherExc 7)⟩
    (Or.inr rfl) (by rintro e he; cases he; rfl)
  exact h.2 rfl (Or.inr ⟨PyExc.otherExc 7, rfl⟩)

/-- Claim C5: whenever the two most recently appended feature vectors
(those of cycles k - 1 and k) differ by less than the tolerance in
every element, the scan loop terminates after cycle k: no cycle j with
j greater than k ever starts. -/
theorem convergence_stops_loop (outputs : ℕ → List Char) (k j : ℕ)
    (hk : 1 ≤ k)
    (hconv : vecConverged (extract_features (outputs k)) (extract_features (outputs (k - 1))))
    (hj : k < j) : ¬ scanLoopRuns outputs j := by
  intro hrun
  have hbreak : breaksAfter (fun i => extract_features (outputs i)) k := ⟨hk, hconv⟩
  have hk1 : runsCycle (fun i => extract_features (outputs i)) (k + 1) :=
    runsCycle_of_le _ j (k + 1) (by omega) hrun
  rw [runsCycle] at hk1
  exact hk1.2 hbreak

theorem convergence_stops_loop_witness : ¬ scanLoopRuns (fun _ => []) 2 := by
  refine convergence_stops_loop (fun _ => []) 1 2 (le_refl 1) ?_ (by omega)
  intro p hp
  have hpq := zip_self_eq (extract_features []) p hp
  rw [hpq, sub_self, abs_zero, tol]
  norm_num

/-- Claim C6: calculate_entropy returns 0 for the empty sequence and for
every single-element sequence; for every sequence of n items with
frequency map f it returns the negated sum over distinct items k of
(f k / n) * log2 (f k / n); for every sequence of pairwise-distinct
items it returns log2 of the length; being a total function of the
embedding, it never fails. -/
theorem calculate_entropy_contract :
    calculate_entropy [] = 0
    ∧ (∀ x : ℕ, calculate_entropy [x] = 0)
    ∧ (∀ l : List ℕ, calculate_entropy l =
        -∑ k in l.toFinset,
          ((l.count k : ℝ) / (l.length : ℝ)) * Real.logb 2 ((l.count k : ℝ) / (l.length : ℝ)))
    ∧ (∀ l : List ℕ, l.Nodup → calculate_entropy l = Real.logb 2 (l.length : ℝ)) := by
  have hform : ∀ l : List ℕ, calculate_entropy l =
      -∑ k in l.toFinset,
        ((l.count k : ℝ) / (l.length : ℝ)) * Real.logb 2 ((l.count k : ℝ) / (l.length : ℝ)) := by
    intro l
    by_cases h : l = []
    · subst h; simp [calculate_entropy]
    · rw [calculate_entropy, if_neg h,
        map_sum_eq_finset_sum (pyDedup l) (nodup_pyDedup l), toFinset_pyDedup]
  refine ⟨by simp [calculate_entropy], ?_, hform, ?_⟩
  · intro x
    rw [calculate_entropy, if_neg (by simp)]
    simp [pyDedup, pyDedupGo, Real.logb_one]
  · intro l hl
    by_cases h : l = []
    · subst h; simp [calculate_entropy, Real.logb_zero]
    · rw [hform]
      have hn : 0 < l.length := List.length_pos.mpr h
      have hne : (l.length : ℝ) ≠ 0 := by
        exact_mod_cast hn.ne'
      have hcount : ∀ k ∈ l.toFinset,
          ((l.count k : ℝ) / (l.length : ℝ)) * Real.logb 2 ((l.count k : ℝ) / (l.length : ℝ)) =
            (1 / (l.length : ℝ)) * Real.logb 2 (1 / (l.length : ℝ)) := by
        intro k hk
        rw [List.count_eq_one_of_mem hl (List.mem_toFinset.mp hk)]
        norm_num
      rw [Finset.sum_congr rfl hcount, Finset.sum_const, List.toFinset_card_of_nodup hl,
        nsmul_eq_mul, one_div, Real.logb_inv]
      field_simp

theorem calculate_entropy_contract_witness :
    calculate_entropy [5, 9] = Real.logb 2 2 := by
  have h := calculate_entropy_contract.2.2.2 [5, 9] (by decide)
  simpa using h

/-- Claim C1, counterexample: on a text holding one iteration marker and
two recovery markers, the first element of the extracted feature vector
is 2, outside the interval [0, 1] asserted by the claim. -/
theorem recovery_ratio_exceeds_one :
    (extract_features
      "Iteration 0:\nCaught segmentation fault\nCaught segmentation fault\n".toList).getD 0 0 = 2
    ∧ ¬ (extract_features
      "Iteration 0:\nCaught segmentation fault\nCaught segmentation fault\n".toList).getD 0 0 ≤ 1 := by
  have h1 : num_iterations
      "Iteration 0:\nCaught segmentation fault\nCaught segmentation fault\n".toList = 1 := by
    decide
  have h2 : num_segfaults
      "Iteration 0:\nCaught segmentation fault\nCaught segmentation fault\n".toList = 2 := by
    decide
  have key : (extract_features
      "Iteration 0:\nCaught segmentation fault\nCaught segmentation fault\n".toList).getD 0 0 = 2 := by
    rw [extract_features_zero, h1, h2]
    norm_num
  exact ⟨key, by rw [key]; norm_num⟩

/-- Claim C1 (amended): for every input text (including the empty string),
extract_features returns a 5-element vector; its first element, the
recovery ratio, is non-negative — and at most 1 whenever the
recovery-marker count does not exceed the iteration-marker count, the
bound the original interval claim holds under — and each element is 0
when its source sequence is empty. -/
theorem extract_features_total (s : List Char) :
    ((extract_features s).length = 5 ∧ 0 ≤ (extract_features s).getD 0 0)
    ∧ (num_segfaults s ≤ num_iterations s → (extract_features s).getD 0 0 ≤ 1)
    ∧ (num_iterations s = 0 → (extract_features s).getD 0 0 = 0)
    ∧ (allocation_sizes s = [] →
        (extract_features s).getD 1 0 = 0 ∧ (extract_features s).getD 2 0 = 0)
    ∧ (hex_addresses s = [] →
        (extract_features s).getD 3 0 = 0 ∧ (extract_features s).getD 4 0 = 0) := by
  refine ⟨⟨rfl, ?_⟩, ?_, ?_, ?_, ?_⟩
  · rw [extract_features_zero]
    split_ifs
    · positivity
    · exact le_refl 0
  · intro hle
    rw [extract_features_zero]
    split_ifs with h
    · rw [div_le_one (by exact_mod_cast h)]
      exact_mod_cast hle
    · norm_num
  · intro h0
    rw [extract_features_zero, if_neg (by omega)]
  · intro ha
    constructor
    · rw [extract_features_one, if_neg (by simp [ha])]
    · rw [extract_features_two, if_neg (by simp [ha])]
  · intro hh
    constructor
    · rw [extract_features_three, if_neg (by simp [hh])]
    · rw [extract_features_four, if_neg (by simp [hh])]

theorem extract_features_total_witness :
    (extract_features []).getD 0 0 ≤ 1
    ∧ (extract_features []).getD 0 0 = 0
    ∧ ((extract_features []).getD 1 0 = 0 ∧ (extract_features []).getD 2 0 = 0)
    ∧ ((extract_features []).getD 3 0 = 0 ∧ (extract_features []).getD 4 0 = 0) := by
  have h := extract_features_total []
  exact ⟨h.2.1 (by decide), h.2.2.1 (by decide),
    h.2.2.2.1 (by decide), h.2.2.2.2 (by decide)⟩

/-- Claim C7: parsing the two-line allocation text yields the sizes 1024
and 3072 in order of appearance; the mean-allocation feature is 2048
and the standard-deviation feature is the Bessel-corrected sample
standard deviation 1024 times the square root of 2, which lies within
0.01 of 1448.15. -/
theorem allocation_scenario :
    allocation_sizes "Allocating 1024 bytes\nAllocating 3072 bytes\n".toList = [1024, 3072]
    ∧ (extract_features "Allocating 1024 bytes\nAllocating 3072 bytes\n".toList).getD 1 0 = 2048
    ∧ (extract_features "Allocating 1024 bytes\nAllocating 3072 bytes\n".toList).getD 2 0 =
        1024 * Real.sqrt 2
    ∧ |(extract_features "Allocating 1024 bytes\nAllocating 3072 bytes\n".toList).getD 2 0 -
        1448.15| < 1 / 100 := by
  have ha : allocation_sizes "Allocating 1024 bytes\nAllocating 3072 bytes\n".toList =
      [1024, 3072] := by decide
  have hv : sampleVariance [1024, 3072] = 2097152 := by
    rw [sampleVariance]
    norm_num
  have hs : sampleStdev [1024, 3072] = 1024 * Real.sqrt 2 := by
    rw [sampleStdev, hv, show (2097152 : ℝ) = 1024 ^ 2 * 2 by norm_num,
      Real.sqrt_mul (by positivity), Real.sqrt_sq (by norm_num)]
  have h1 : (extract_features "Allocating 1024 bytes\nAllocating 3072 bytes\n".toList).getD 1 0 =
      2048 := by
    rw [extract_features_one, ha, if_pos (by simp)]
    norm_num
  have h2 : (extract_features "Allocating 1024 bytes\nAllocating 3072 bytes\n".toList).getD 2 0 =
      1024 * Real.sqrt 2 := by
    rw [extract_features_two, ha, if_pos (by norm_num), hs]
  have hlo : (1.414213 : ℝ) < Real.sqrt 2 := by
    rw [show (1.414213 : ℝ) = √(1.414213 ^ 2) from
      (Real.sqrt_sq (by norm_num)).symm]
    exact Real.sqrt_lt_sqrt (by positivity) (by norm_num)
  have hhi : Real.sqrt 2 < 1.414214 := by
    rw [Real.sqrt_lt' (by norm_num)]
    norm_num
  refine ⟨ha, h1, h2, ?_⟩
  rw [h2, abs_sub_lt_iff]
  constructor <;> nlinarith [hlo, hhi]

/-- Claim C3, failing input: the text holding exactly the two hex tokens
0x1 and 0x2 has two address samples, yet the report carries the
insufficient-data fallback and none of the mean, median and
standard-deviation statements: the mean 1.5 is a Python float and
formatting it with ":016x" raises ValueError inside the try block, so
the except clause replaces all three statements with the fallback. -/
theorem hex_stats_insufficient_with_two_samples :
    1 < (addresses_int "0x1 0x2".toList).length
    ∧ analyze_scan_output "0x1 0x2".toList =
      [Insight.totalIterationsLine 0, Insight.numSegfaultsLine 0, Insight.noIterationsLine,
       Insight.noAllocData, Insight.totalHexLine 2, Insight.uniqueHexLine 2,
       Insight.insufficientHexStats, Insight.entropyLine, Insight.noRepetitive,
       Insight.segfaultWithinLimits, Insight.interpHeader,
       Insight.interpLine "0x1".toList AddrClass.unknown,
       Insight.interpLine "0x2".toList AddrClass.unknown, Insight.nullPageNotDetected]
    ∧ Insight.insufficientHexStats ∈ analyze_scan_output "0x1 0x2".toList
    ∧ (∀ v : ℤ, Insight.avgAddrLine v ∉ analyze_scan_output "0x1 0x2".toList)
    ∧ (∀ v : ℤ, Insight.medianAddrLine v ∉ analyze_scan_output "0x1 0x2".toList)
    ∧ Insight.stdevAddrLine ∉ analyze_scan_output "0x1 0x2".toList := by
  have heq : analyze_scan_output "0x1 0x2".toList =
      [Insight.totalIterationsLine 0, Insight.numSegfaultsLine 0, Insight.noIterationsLine,
       Insight.noAllocData, Insight.totalHexLine 2, Insight.uniqueHexLine 2,
       Insight.insufficientHexStats, Insight.entropyLine, Insight.noRepetitive,
       Insight.segfaultWithinLimits, Insight.interpHeader,
       Insight.interpLine "0x1".toList AddrClass.unknown,
       Insight.interpLine "0x2".toList AddrClass.unknown, Insight.nullPageNotDetected] := by
    decide
  refine ⟨by decide, heq, ?_, ?_, ?_, ?_⟩
  · rw [heq]; simp
  · intro v; rw [heq]; simp
  · intro v; rw [heq]; simp
  · rw [heq]; simp

/-- Claim C8: for every text whose hex tokens are the string 0x0 exactly
once and the string 0xdeadbeef exactly nine times, the unique-address
feature is 2, the report raises the null-pointer flag and reports no
highly-repetitive token (the repetition threshold is strictly more than
10 occurrences, which 9 does not meet), while the token still occurs 9
times in the ordered token sequence. -/
theorem null_and_deadbeef_scenario (s : List Char)
    (h0 : (hex_addresses s).count "0x0".toList = 1)
    (h9 : (hex_addresses s).count "0xdeadbeef".toList = 9)
    (hall : ∀ t ∈ hex_addresses s, t = "0x0".toList ∨ t = "0xdeadbeef".toList) :
    (extract_features s).getD 4 0 = 2
    ∧ Insight.nullPointerFlag ∈ analyze_scan_output s
    ∧ Insight.noRepetitive ∈ analyze_scan_output s
    ∧ (hex_addresses s).count "0xdeadbeef".toList = 9 := by
  have hmem0 : "0x0".toList ∈ hex_addresses s := List.count_pos_iff.mp (by omega)
  have hmemD : "0xdeadbeef".toList ∈ hex_addresses s := List.count_pos_iff.mp (by omega)
  have hne : hex_addresses s ≠ [] := by
    intro h
    rw [h] at hmem0
    exact absurd hmem0 (List.not_mem_nil _)
  have htf : (addresses_int s).toFinset = ({0, 3735928559} : Finset ℕ) := by
    ext x
    simp only [addresses_int, List.mem_toFinset, List.mem_map, Finset.mem_insert,
      Finset.mem_singleton]
    constructor
    · rintro ⟨t, ht, rfl⟩
      rcases hall t ht with rfl | rfl
      · left; decide
      · right; decide
    · rintro (rfl | rfl)
      · exact ⟨"0x0".toList, hmem0, by decide⟩
      · exact ⟨"0xdeadbeef".toList, hmemD, by decide⟩
  have hcard : (pyDedup (addresses_int s)).length = 2 := by
    rw [length_pyDedup, htf]
    decide
  have hfeat : (extract_features s).getD 4 0 = 2 := by
    rw [extract_features_four, if_pos hne, hcard]
    norm_num
  have hflag7 : Insight.nullPointerFlag ∈ sec7 s := by
    rw [sec7, if_neg hne]
    refine List.mem_append.mpr (Or.inr ?_)
    rw [if_pos hmem0]
    simp
  have hflag : Insight.nullPointerFlag ∈ analyze_scan_output s := by
    rw [analyze_scan_output]
    simp only [List.mem_append]
    tauto
  have hfilter :
      (pyDedup (hex_addresses s)).filter (fun t => 10 < (hex_addresses s).count t) = [] := by
    rw [List.filter_eq_nil_iff]
    intro t ht
    have htm : t ∈ hex_addresses s := (mem_pyDedup _ _).mp ht
    rcases hall t htm with rfl | rfl
    · have h0x : List.count ['0', 'x', '0'] (hex_addresses s) = 1 := h0
      simp [h0x]
    · have h9x : List.count ['0', 'x', 'd', 'e', 'a', 'd', 'b', 'e', 'e', 'f']
          (hex_addresses s) = 9 := h9
      simp [h9x]
  have hnorep5 : Insight.noRepetitive ∈ sec5 s := by
    rw [sec5, if_pos hfilter]
    simp
  have hnorep : Insight.noRepetitive ∈ analyze_scan_output s := by
    rw [analyze_scan_output]
    simp only [List.mem_append]
    tauto
  exact ⟨hfeat, hflag, hnorep, h9⟩

theorem null_and_deadbeef_scenario_witness :
    (extract_features ("0x0 0xdeadbeef 0xdeadbeef 0xdeadbeef 0xdeadbeef 0xdeadbeef " ++
        "0xdeadbeef 0xdeadbeef 0xdeadbeef 0xdeadbeef").toList).getD 4 0 = 2
    ∧ Insight.nullPointerFlag ∈ analyze_scan_output
        ("0x0 0xdeadbeef 0xdeadbeef 0xdeadbeef 0xdeadbeef 0xdeadbeef " ++
          "0xdeadbeef 0xdeadbeef 0xdeadbeef 0xdeadbeef").toList
    ∧ Insight.noRepetitive ∈ analyze_scan_output
        ("0x0 0xdeadbeef 0xdeadbeef 0xdeadbeef 0xdeadbeef 0xdeadbeef " ++
          "0xdeadbeef 0xdeadbeef 0xdeadbeef 0xdeadbeef").toList := by
  have h := null_and_deadbeef_scenario
    ("0x0 0xdeadbeef 0xdeadbeef 0xdeadbeef 0xdeadbeef 0xdeadbeef " ++
      "0xdeadbeef 0xdeadbeef 0xdeadbeef 0xdeadbeef").toList
    (by decide) (by decide) (by decide)
  exact ⟨h.1, h.2.1, h.2.2.1⟩

theorem flag_not_mem_hexTryLines (ints : List ℕ) :
    Insight.nullPointerFlag ∉ hexTryLines ints := by
  rw [hexTryLines]
  cases fmtHex (statMeanInts ints) with
  | none => simp
  | some m =>
    cases fmtHex (statMedianInts ints) with
    | none => simp
    | some md => simp

theorem flag_not_mem_sec1 (s : List Char) : Insight.nullPointerFlag ∉ sec1 s := by
  simp [sec1]

theorem flag_not_mem_sec2 (s : List Char) : Insight.nullPointerFlag ∉ sec2 s := by
  rw [sec2]
  split_ifs <;> simp

theorem flag_not_mem_sec3 (s : List Char) : Insight.nullPointerFlag ∉ sec3 s := by
  rw [sec3]
  split_ifs <;> simp

theorem flag_not_mem_sec4 (s : List Char) : Insight.nullPointerFlag ∉ sec4 s := by
  rw [sec4]
  split_ifs with h1 h2
  · simp
  · simp only [List.mem_append, List.mem_cons, List.mem_singleton]
    rintro ((h | h | h) | h | h) <;>
      first
        | simp at h
        | exact flag_not_mem_hexTryLines _ h
  · simp

theorem flag_not_mem_sec5 (s : List Char) : Insight.nullPointerFlag ∉ sec5 s := by
  rw [sec5]
  split_ifs
  · simp
  · intro hm
    rcases List.mem_cons.mp hm with h | h
    · simp at h
    · rcases List.mem_map.mp h with ⟨t, -, h⟩
      simp at h

theorem flag_not_mem_sec6 (s : List Char) : Insight.nullPointerFlag ∉ sec6 s := by
  rw [sec6]
  split_ifs <;> simp

theorem flag_not_mem_sec8 (s : List Char) : Insight.nullPointerFlag ∉ sec8 s := by
  rw [sec8]
  split_ifs <;> simp

theorem flag_mem_sec7_iff (s : List Char) :
    Insight.nullPointerFlag ∈ sec7 s ↔ "0x0".toList ∈ hex_addresses s := by
  rw [sec7]
  split_ifs with h hmem
  · rw [h]
    simp
  · simp only [hmem, iff_true]
    exact List.mem_append.mpr (Or.inr (by simp))
  · simp only [List.append_nil, hmem, iff_false]
    intro hm
    rcases List.mem_cons.mp hm with he | hm2
    · simp at he
    · rcases List.mem_map.mp hm2 with ⟨t, -, he⟩
      simp at he

/-- Claim C10: the null-pointer red-team insight is raised exactly when
the literal token 0x0 occurs among the extracted token strings; the
token 0x00 parses to the integer 0 and is classified as NULL pointer in
the per-address interpretation lines, yet does not raise the dedicated
flag. -/
theorem null_flag_exact_token :
    (∀ s : List Char,
      Insight.nullPointerFlag ∈ analyze_scan_output s ↔ "0x0".toList ∈ hex_addresses s)
    ∧ tokenVal "0x00".toList = 0
    ∧ Insight.interpLine "0x00".toList AddrClass.nullPointer ∈
        analyze_scan_output "0x00".toList
    ∧ Insight.nullPointerFlag ∉ analyze_scan_output "0x00".toList := by
  refine ⟨?_, by decide, by decide, by decide⟩
  intro s
  have h1 := flag_not_mem_sec1 s
  have h2 := flag_not_mem_sec2 s
  have h3 := flag_not_mem_sec3 s
  have h4 := flag_not_mem_sec4 s
  have h5 := flag_not_mem_sec5 s
  have h6 := flag_not_mem_sec6 s
  have h8 := flag_not_mem_sec8 s
  have h7 := flag_mem_sec7_iff s
  constructor
  · intro hm
    simp only [analyze_scan_output, List.mem_append] at hm
    tauto
  · intro hm
    simp only [analyze_scan_output, List.mem_append]
    tauto
